import Mathlib

/-!
# Verification of the reaviz color helper (`src/common/color/helper.ts`)

This file shallowly embeds the color-scheme resolution module of the
repository and proves the specification claims about it.

Modelling conventions:
* JavaScript runtime values are modelled by the inductive type `Value`.
  Numbers are modelled by `ℚ` (the module performs no floating-point
  arithmetic whose rounding could be observed by any claim; `NaN` does not
  arise on the inputs the claims quantify over and is not modelled).
* Property access on `undefined`/`null` throws a `TypeError`; fallible
  computations therefore live in `Except JsErr`.
* Strict equality (used by the d3 `InternMap` that backs ordinal-scale
  domains) is structural on primitives; objects and arrays compare by
  reference in JavaScript, and since every value built during a single
  call of the embedded code is fresh, two composite values are modelled
  as never strictly equal.
* JavaScript relational operators are modelled on number/number and
  string/string pairs (the only comparisons the module performs on the
  inputs under consideration); other pairs compare as `false`.
* The d3 library functions used by the module (`scaleOrdinal`,
  `scaleQuantile`, `maxIndex`, `extent`) are embedded following their
  d3 implementations.
* The global named-scheme table `schemes` (from `./schemes`, a read-only
  registry of name ↦ palette) is passed as an explicit parameter
  `schemes : String → Option (List Value)`; an entry present in the
  table is an array and hence truthy.
* The TypeScript field `attribute` is named `attr` here (`attribute` is a
  Lean keyword); all other source names are kept.
-/

/-- A JavaScript runtime value. -/
inductive Value where
  | undef : Value
  | null : Value
  | bool : Bool → Value
  | num : ℚ → Value
  | str : String → Value
  | arr : List Value → Value
  | obj : List (String × Value) → Value

/-- A thrown JavaScript error. -/
inductive JsErr where
  | typeError : String → JsErr
deriving DecidableEq

/-- A color scheme as dispatched on by `getColor`: either a callback
function `(point, index, active) => string` or a plain value (string,
array, or any other literal). -/
inductive ColorScheme where
  | fn : (Value → Value → Value → Value) → ColorScheme
  | val : Value → ColorScheme

/-- JavaScript strict equality (`===`) restricted to the fragment the
module exercises: structural on primitives; composite values (which
JavaScript compares by reference, and which are always freshly built
here) are never equal. -/
def jsStrictEq : Value → Value → Bool
  | Value.undef, Value.undef => true
  | .null, .null => true
  | .bool a, .bool b => a == b
  | .num a, .num b => a == b
  | .str a, .str b => a == b
  | _, _ => false

/-- JavaScript truthiness. -/
def truthy : Value → Bool
  | Value.undef => false
  | .null => false
  | .bool b => b
  | .num q => !(q == 0)
  | .str s => !(s == "")
  | .arr _ => true
  | .obj _ => true

/-- `v == null` (loose equality against `null`): true exactly for
`undefined` and `null`. -/
def isNullish : Value → Bool
  | Value.undef => true
  | .null => true
  | _ => false

/-- Is the value exactly `undefined`? -/
def isUndef : Value → Bool
  | Value.undef => true
  | _ => false

/-- `Array.isArray`. -/
def isArr : Value → Bool
  | .arr _ => true
  | _ => false

/-- `typeof v === 'object'` — true for objects, arrays and `null`. -/
def typeofIsObject : Value → Bool
  | .null => true
  | .obj _ => true
  | .arr _ => true
  | _ => false

/-- First binding of a key in an object's field list (fields are modelled
with distinct keys, as produced by object literals). -/
def lookupField : List (String × Value) → String → Value
  | [], _ => Value.undef
  | (k, v) :: fs, key => if k = key then v else lookupField fs key

/-- Property read that cannot throw (receiver known non-nullish):
objects look up their fields, arrays and strings expose `length`, other
primitives have no own properties; absent properties read `undefined`. -/
def jsGetFieldTotal (v : Value) (key : String) : Value :=
  match v with
  | .obj fs => lookupField fs key
  | .arr xs => if key = "length" then .num xs.length else Value.undef
  | .str s => if key = "length" then .num s.length else Value.undef
  | _ => Value.undef

/-- Property read with JavaScript semantics: reading a property of
`undefined` or `null` throws a `TypeError`. -/
def jsGetField (v : Value) (key : String) : Except JsErr Value :=
  match v with
  | Value.undef => .error (.typeError "Cannot read properties of undefined")
  | .null => .error (.typeError "Cannot read properties of null")
  | _ => .ok (jsGetFieldTotal v key)

/-- Array indexing `xs[i]` for a (possibly negative) index: out-of-range
reads yield `undefined`. -/
def jsIndex (xs : List Value) (i : Int) : Value :=
  if 0 ≤ i then xs.getD i.toNat Value.undef else Value.undef

/-- JavaScript `<` on the pairs the module compares (numbers and
strings); other pairs compare as `false`. -/
def jsLt : Value → Value → Bool
  | .num a, .num b => decide (a < b)
  | .str a, .str b => decide (a < b)
  | _, _ => false

/-- JavaScript `>=` on number/number and string/string pairs (total
orders, so `a >= b` is `¬(a < b)`); other pairs compare as `false`. -/
def jsGe (a b : Value) : Bool :=
  match a, b with
  | .num _, .num _ => !(jsLt a b)
  | .str _, .str _ => !(jsLt a b)
  | _, _ => false

/-- Numeric coercion `+v` as used by `scaleQuantile`, returning `none`
for not-a-number results. Strings are coerced to `NaN` here (true for
every color string; numeric strings do not occur in the module's
quantile domains, which are produced from numeric `value` fields). -/
def toNumJs : Value → Option ℚ
  | .num q => some q
  | .bool b => some (if b then 1 else 0)
  | _ => none

/-- First index satisfying a predicate. -/
def findIdxJs (p : Value → Bool) : List Value → Option Nat
  | [] => none
  | x :: xs => if p x then some 0 else (findIdxJs p xs).map (· + 1)

/-- De-duplication keeping first occurrences, under strict equality —
how the d3 `InternMap` builds an ordinal domain. -/
def dedupValues (xs : List Value) : List Value :=
  xs.foldl (fun acc x => if acc.any (fun y => jsStrictEq y x) then acc else acc ++ [x]) []

/-- A scale-construction strategy, as used by
`scale(colorScheme).domain(domain)(key)`: range, then domain, then key. -/
def ScaleFn : Type := List Value → List Value → Value → Value

/-- d3 `scaleOrdinal` with the implicit-unknown default: the domain is
de-duplicated preserving first occurrences; a key found at position `i`
maps to `range[i % range.length]`; an unknown key is appended to the
domain. An empty range yields `undefined`. -/
def scaleOrdinal : ScaleFn := fun range domain key =>
  let dom := dedupValues domain
  let i := match findIdxJs (fun y => jsStrictEq y key) dom with
    | some i => i
    | none => dom.length
  range.getD (i % range.length) Value.undef

/-- Insert into a sorted list of rationals. -/
def insertSorted (x : ℚ) : List ℚ → List ℚ
  | [] => [x]
  | y :: ys => if x ≤ y then x :: y :: ys else y :: insertSorted x ys

/-- Sort ascending (d3 sorts the quantile domain with `ascending`). -/
def sortAsc (xs : List ℚ) : List ℚ := xs.foldr insertSorted []

/-- d3 `quantileSorted` on a sorted list: `none` (JS `undefined`) for an
empty list, first element for `p ≤ 0` or a singleton, last element for
`p ≥ 1`, and linear interpolation in between. -/
def quantileSorted (vs : List ℚ) (p : ℚ) : Option ℚ :=
  match vs with
  | [] => none
  | v :: rest =>
    if p ≤ 0 ∨ (v :: rest).length < 2 then some v
    else if 1 ≤ p then some ((v :: rest).getLastD 0)
    else
      let i : ℚ := (((v :: rest).length : ℚ) - 1) * p
      let i0 : ℕ := (Rat.floor i).toNat
      let v0 := (v :: rest).getD i0 0
      let v1 := (v :: rest).getD (i0 + 1) 0
      some (v0 + (v1 - v0) * (i - (i0 : ℚ)))

/-- d3 `scaleQuantile`: the domain keeps its coercible numbers sorted
ascending; thresholds are the `i/n` quantiles (`n` = range size); a
nullish or non-numeric key maps to `undefined`, otherwise the key is
placed by bisection among the thresholds (an undefined threshold, which
arises exactly when the domain is empty, compares as "go left", matching
d3's `ascending` returning `NaN`). -/
def scaleQuantile : ScaleFn := fun range domain key =>
  let dom := sortAsc (domain.filterMap toNumJs)
  let n := max 1 range.length
  let thresholds := (List.range (n - 1)).map (fun j => quantileSorted dom (((j : ℚ) + 1) / (n : ℚ)))
  if isNullish key then Value.undef
  else match toNumJs key with
    | none => Value.undef
    | some x =>
      range.getD ((thresholds.takeWhile (fun t => match t with
        | some q => decide (q ≤ x)
        | none => false)).length) Value.undef

/-- Loop of d3 `maxIndex` with an accessor: skips nullish accessor
results, remembers the first value comparing `>=` to itself, and
replaces the current maximum only on a strict `<`. -/
def maxIndexGo (f : Value → Except JsErr Value) :
    List Value → Nat → Option (Value × Nat) → Except JsErr (Option (Value × Nat))
  | [], _, acc => .ok acc
  | d :: ds, i, acc =>
    match f d with
    | .error e => .error e
    | .ok value =>
      let acc' :=
        if isNullish value then acc
        else match acc with
          | none => if jsGe value value then some (value, i) else none
          | some (m, mi) => if jsLt m value then some (value, i) else some (m, mi)
      maxIndexGo f ds (i + 1) acc'

/-- d3 `maxIndex` with an accessor: the index of the greatest accessor
value (first occurrence wins ties), `-1` if no comparable value. -/
def maxIndexJs (xs : List Value) (f : Value → Except JsErr Value) : Except JsErr Int :=
  match maxIndexGo f xs 0 none with
  | .error e => .error e
  | .ok (some (_, i)) => .ok (i : Int)
  | .ok none => .ok (-1)

/-- d3 `extent`: the `[min, max]` pair over the comparable entries of a
list, `[undefined, undefined]` when there is none. -/
def extentJs (vs : List Value) : List Value :=
  let step := fun (acc : Option (Value × Value)) v =>
    if isNullish v then acc
    else match acc with
      | none => if jsGe v v then some (v, v) else none
      | some (mn, mx) =>
        some ((if jsLt v mn then v else mn), (if jsLt mx v then v else mx))
  match vs.foldl step none with
  | none => [Value.undef, Value.undef]
  | some (mn, mx) => [mn, mx]

/-- The body of `rangeHelper`'s mapper: for a truthy element use its
`attr` property when defined, else its `data`'s `attr` property when
`data` is truthy and that is defined; otherwise the positional index. -/
def rangeEntry (attr : String) (r : Value) (i : Nat) : Value :=
  if truthy r then
    if !(isUndef (jsGetFieldTotal r attr)) then jsGetFieldTotal r attr
    else
      if truthy (jsGetFieldTotal r "data")
          && !(isUndef (jsGetFieldTotal (jsGetFieldTotal r "data") attr)) then
        jsGetFieldTotal (jsGetFieldTotal r "data") attr
      else .num i
  else .num i

/-- `point.map((r, i) => ...)` — the element-wise loop of `rangeHelper`. -/
def rangeEntriesGo (attr : String) : List Value → Nat → List Value
  | [], _ => []
  | r :: rs, i => rangeEntry attr r i :: rangeEntriesGo attr rs (i + 1)

/-- The derived domain of a series. -/
def rangeEntries (xs : List Value) (attr : String) : List Value :=
  rangeEntriesGo attr xs 0

/-- `rangeHelper(point, attribute)`: maps the mapper over `point`;
calling `.map` on a non-array throws a `TypeError`. -/
def rangeHelper (point : Value) (attr : String) : Except JsErr (List Value) :=
  match point with
  | .arr xs => .ok (rangeEntries xs attr)
  | _ => .error (.typeError "point.map is not a function")

/-- The props record of `getColor` (`Partial<ColorHelperProps>`): `none`
models an absent field, `some v` a field present with value `v`. -/
structure ColorHelperProps where
  colorScheme : Option ColorScheme := none
  point : Option Value := none
  data : Option Value := none
  index : Option Value := none
  active : Option Value := none
  scale : Option ScaleFn := none
  domain : Option (List Value) := none
  key : Option Value := none
  attr : Option String := none
  isMultiSeries : Option Bool := none

/-- The named-scheme substitution performed first by `getColor`: a
string scheme found in the `schemes` table is replaced by its palette
(table entries are arrays, hence truthy); anything else is unchanged. -/
def resolveScheme (schemes : String → Option (List Value)) (cs : ColorScheme) : ColorScheme :=
  match cs with
  | .val (.str s) =>
    match schemes s with
    | some pal => .val (.arr pal)
    | none => cs
  | _ => cs

/-- The accessor `(d) => d.data.length` used by the multi-series
`maxIndex` call. -/
def seriesLenAccessor (d : Value) : Except JsErr Value :=
  match jsGetField d "data" with
  | .error e => .error e
  | .ok dd => jsGetField dd "length"

/-- The implicit-domain derivation inside `getColor`: in the multi-series
case (flag set and `data` an array), `data` is first replaced by the
`data` field of its element of maximal `data.length`; then the result is
passed to `rangeHelper`. -/
def deriveDomain (attr : String) (isMultiSeries : Bool) (data0 : Value) :
    Except JsErr (List Value) :=
  match data0, isMultiSeries with
  | .arr ds, true =>
    match maxIndexJs ds seriesLenAccessor with
    | .error e => .error e
    | .ok maxIdx =>
      match jsGetField (jsIndex ds maxIdx) "data" with
      | .error e => .error e
      | .ok data1 => rangeHelper data1 attr
  | _, _ => rangeHelper data0 attr

/-- `key !== undefined ? key : point[attribute]`. -/
def getKey (point : Value) (attr : String) (key0 : Value) : Except JsErr Value :=
  match key0 with
  | Value.undef => jsGetField point attr
  | k => .ok k

/-- `getColor` from `src/common/color/helper.ts`, with the `schemes`
table passed explicitly. Defaults: `attribute = "key"`,
`isMultiSeries = false`, `scale = scaleOrdinal`; destructured fields
absent from the props read `undefined`. Dispatch: a string scheme found
in `schemes` is replaced by its palette; an array scheme goes through
the scale (deriving the domain when none is supplied, and the key from
`point[attribute]` when none is supplied); a callback is invoked with
`(point, index, active)`; anything else is returned unchanged. -/
def getColor (schemes : String → Option (List Value)) (props : ColorHelperProps) :
    Except JsErr Value :=
  let attr := props.attr.getD "key"
  let isMultiSeries := props.isMultiSeries.getD false
  let scale := props.scale.getD scaleOrdinal
  let point := props.point.getD Value.undef
  let data0 := props.data.getD Value.undef
  match resolveScheme schemes (props.colorScheme.getD (.val Value.undef)) with
  | .val (.arr pal) =>
    match (match props.domain with
           | some d => Except.ok d
           | none => deriveDomain attr isMultiSeries data0) with
    | .error e => .error e
    | .ok domain =>
      match getKey point attr (props.key.getD Value.undef) with
      | .error e => .error e
      | .ok key => .ok (scale pal domain key)
  | .fn f => .ok (f point (props.index.getD Value.undef) (props.active.getD Value.undef))
  | .val v => .ok v

/-- Modelled from the spec: `uniqueBy` (from `../utils`, whose source is
not included) — "a de-duplication helper over a dataset keyed by a
projection function", computing "the de-duplicated set of
(groupingKey, value) pairs in data (de-duplication keyed by a grouping
projection, retaining one representative value per group)". The loop
carries the group keys seen so far and keeps the first representative's
value per key. -/
def uniqueByGo (keyBy valBy : Value → Except JsErr Value) :
    List Value → List Value → Except JsErr (List Value)
  | [], _ => .ok []
  | d :: ds, seen =>
    match keyBy d with
    | .error e => .error e
    | .ok k =>
      if seen.any (fun s => jsStrictEq s k) then uniqueByGo keyBy valBy ds seen
      else
        match valBy d with
        | .error e => .error e
        | .ok v =>
          match uniqueByGo keyBy valBy ds (k :: seen) with
          | .error e => .error e
          | .ok vs => .ok (v :: vs)

/-- Modelled from the spec: `uniqueBy` entry point (see `uniqueByGo`). -/
def uniqueBy (data : List Value) (keyBy valBy : Value → Except JsErr Value) :
    Except JsErr (List Value) :=
  uniqueByGo keyBy valBy data []

/-- The numeric domain computed by `getValueScale`:
`extent(uniqueBy(data, d => d.data, d => d.value))`. -/
def valueDomainOf (data : List Value) : Except JsErr (List Value) :=
  match uniqueBy data (fun d => jsGetField d "data") (fun d => jsGetField d "value") with
  | .error e => .error e
  | .ok vs => .ok (extentJs vs)

/-- The closure returned by `getValueScale`: a nullish point maps to the
placeholder `emptyColor`; any other point is resolved by `getColor` with
the quantile scale over the precomputed domain. -/
def valueScaleFun (schemes : String → Option (List Value)) (dom : List Value)
    (colorScheme : ColorScheme) (emptyColor : Value) : Value → Except JsErr Value :=
  fun point =>
    if isNullish point then .ok emptyColor
    else getColor schemes
      { scale := some scaleQuantile
        domain := some dom
        key := some point
        colorScheme := some colorScheme }

/-- `getValueScale(data, colorScheme, emptyColor)`: computes the value
domain (which can throw while projecting the data), then returns the
value-scale closure. -/
def getValueScale (schemes : String → Option (List Value)) (data : List Value)
    (colorScheme : ColorScheme) (emptyColor : Value) :
    Except JsErr (Value → Except JsErr Value) :=
  match valueDomainOf data with
  | .error e => .error e
  | .ok dom => .ok (valueScaleFun schemes dom colorScheme emptyColor)

/-- Optional-chained index `schemeItem?.[prop]` for a value of object
type: `null` reads `undefined`, otherwise an ordinary property read. -/
def optChainGet (v : Value) (prop : String) : Value :=
  match v with
  | .null => Value.undef
  | _ => jsGetFieldTotal v prop

/-- `getColorSchemeForProperty`: a non-array scheme is returned as is; in
an array, entries of object type are projected to the given property
(via optional chaining) and other entries pass through as scalar colors. -/
def getColorSchemeForProperty (colorScheme : ColorScheme) (prop : String) : ColorScheme :=
  match colorScheme with
  | .val (.arr items) =>
    .val (.arr (items.map (fun it => if typeofIsObject it then optChainGet it prop else it)))
  | _ => colorScheme

/-- `Object.keys` with JavaScript semantics: throws on `undefined` and
`null`; an object lists its keys (first occurrence); strings and arrays
list their index keys; other primitives have none. -/
def jsObjectKeys : Value → Except JsErr (List String)
  | Value.undef => .error (.typeError "Cannot convert undefined or null to object")
  | .null => .error (.typeError "Cannot convert undefined or null to object")
  | .obj fs => .ok ((fs.map Prod.fst).foldl (fun acc k => if k ∈ acc then acc else acc ++ [k]) [])
  | .str s => .ok ((List.range s.length).map toString)
  | .arr xs => .ok ((List.range xs.length).map toString)
  | _ => .ok []

/-- The key list `Object.keys` yields for a non-nullish value. -/
def objKeysPure (v : Value) : List String :=
  match v with
  | .obj fs => (fs.map Prod.fst).foldl (fun acc k => if k ∈ acc then acc else acc ++ [k]) []
  | .str s => (List.range s.length).map toString
  | .arr xs => (List.range xs.length).map toString
  | _ => []

/-- First-occurrence de-duplication of strings (`[...new Set(_)]`). -/
def dedupStr (xs : List String) : List String :=
  xs.foldl (fun acc k => if k ∈ acc then acc else acc ++ [k]) []

/-- `colorScheme.flatMap(Object.keys)`: throws at the first nullish
entry. -/
def flatMapObjectKeys : List Value → Except JsErr (List String)
  | [] => .ok []
  | it :: its =>
    match jsObjectKeys it with
    | .error e => .error e
    | .ok ks =>
      match flatMapObjectKeys its with
      | .error e => .error e
      | .ok rest => .ok (ks ++ rest)

/-- The per-property loop of `createColorSchemeValueScales`: one value
scale per property key, in order. -/
def buildPropScales (schemes : String → Option (List Value)) (data : List Value)
    (colorScheme : ColorScheme) (emptyColor : Value) :
    List String → Except JsErr (List (String × (Value → Except JsErr Value)))
  | [] => .ok []
  | k :: ks =>
    match getValueScale schemes data (getColorSchemeForProperty colorScheme k) emptyColor with
    | .error e => .error e
    | .ok vs =>
      match buildPropScales schemes data colorScheme emptyColor ks with
      | .error e => .error e
      | .ok rest => .ok ((k, vs) :: rest)

/-- `createColorSchemeValueScales(data, colorScheme, emptyColor)`: when
the scheme is an array whose first element has object type, it builds
one value scale per key of the de-duplicated union
`[...new Set(colorScheme.flatMap(Object.keys))]`, each over the scheme
projected to that key; otherwise a single `"fill"` scale over the whole
scheme. The insertion-ordered `Map` is modelled as an association list. -/
def createColorSchemeValueScales (schemes : String → Option (List Value)) (data : List Value)
    (colorScheme : ColorScheme) (emptyColor : Value) :
    Except JsErr (List (String × (Value → Except JsErr Value))) :=
  match colorScheme with
  | .val (.arr items) =>
    if typeofIsObject (items.headD Value.undef) then
      match flatMapObjectKeys items with
      | .error e => .error e
      | .ok allKeys => buildPropScales schemes data colorScheme emptyColor (dedupStr allKeys)
    else
      match getValueScale schemes data colorScheme emptyColor with
      | .error e => .error e
      | .ok vs => .ok [("fill", vs)]
  | _ =>
    match getValueScale schemes data colorScheme emptyColor with
    | .error e => .error e
    | .ok vs => .ok [("fill", vs)]

/-- The per-element domain rule in the words of the specification: the
element's `attr` value when that is defined, else the `attr` value of
the element's nested `data` when defined there, else the positional
index. -/
def specDomainEntry (attr : String) (r : Value) (i : Nat) : Value :=
  if !(isUndef (jsGetFieldTotal r attr)) then jsGetFieldTotal r attr
  else if !(isUndef (jsGetFieldTotal (jsGetFieldTotal r "data") attr)) then
    jsGetFieldTotal (jsGetFieldTotal r "data") attr
  else .num i

/-- The element-wise loop of the specification's domain rule. -/
def specDomainGo (attr : String) : List Value → Nat → List Value
  | [], _ => []
  | r :: rs, i => specDomainEntry attr r i :: specDomainGo attr rs (i + 1)

/-- The whole derived domain in the specification's words. -/
def specDomainList (xs : List Value) (attr : String) : List Value :=
  specDomainGo attr xs 0

/-- Elements on which the code's truthiness guard agrees with the
specification's "when that is defined" reading: the empty string is the
only falsy JavaScript value owning a property (`length`), so it is
excluded, directly and as a nested `data` field. -/
def elementOk (r : Value) : Bool :=
  !(jsStrictEq r (.str "")) && !(jsStrictEq (jsGetFieldTotal r "data") (.str ""))

/-- Does a series element carry an array `data` field? -/
def goodSeries (d : Value) : Bool :=
  match d with
  | .obj fs =>
    match lookupField fs "data" with
    | .arr _ => true
    | _ => false
  | _ => false

/-- The inner series of a series element (empty if there is none). -/
def seriesData (d : Value) : List Value :=
  match d with
  | .obj fs =>
    match lookupField fs "data" with
    | .arr xs => xs
    | _ => []
  | _ => []

/-- First-occurrence argmax loop, in the words of the claim: the running
maximum is replaced only by a strictly greater value, so ties keep the
earlier index. -/
def firstArgmaxGo (bi bv i : Nat) : List Nat → Nat × Nat
  | [] => (bi, bv)
  | l :: ls => if bv < l then firstArgmaxGo i l (i + 1) ls else firstArgmaxGo bi bv (i + 1) ls

/-- The index of the greatest entry, ties broken by first occurrence. -/
def firstArgmax : List Nat → Nat
  | [] => 0
  | l :: ls => (firstArgmaxGo 0 l 1 ls).1

/-- The key step of `getColor` cannot throw: either an explicit key is
present, or the point supports property access. -/
def keySafe (props : ColorHelperProps) : Bool :=
  !(isUndef (props.key.getD Value.undef)) || !(isNullish (props.point.getD Value.undef))

/-- The domain step of `getColor` cannot throw: either an explicit
domain is present, or `data` is an array — in the multi-series case a
nonempty array of series objects carrying array `data` fields. -/
def dataSafe (props : ColorHelperProps) : Bool :=
  match props.domain with
  | some _ => true
  | none =>
    match props.data.getD Value.undef, props.isMultiSeries.getD false with
    | .arr ds, true => !ds.isEmpty && ds.all goodSeries
    | .arr _, false => true
    | _, _ => false

/-- The concatenated `Object.keys` lists of a scheme's entries (the
result of `flatMap(Object.keys)` when no entry is nullish). -/
def unionKeys : List Value → List String
  | [] => []
  | it :: its => objKeysPure it ++ unionKeys its

/-- An empty named-scheme table, used to instantiate theorems at
concrete inputs. -/
def noSchemes : String → Option (List Value) := fun _ => none

/-- C2: for every `colorScheme` value that is neither an array, nor a
function, nor a string naming a predefined scheme in the `schemes`
table, `getColor` returns that value unchanged, whatever every other
prop is. -/
theorem getColor_literal_passthrough (schemes : String → Option (List Value))
    (props : ColorHelperProps) (v : Value)
    (hcs : props.colorScheme = some (.val v))
    (hnotarr : isArr v = false)
    (hnotscheme : ∀ s, v = .str s → schemes s = none) :
    getColor schemes props = .ok v := by
  cases v with
  | str s =>
    have h := hnotscheme s rfl
    simp [getColor, hcs, resolveScheme, h]
  | arr xs => simp [isArr] at hnotarr
  | undef => simp [getColor, hcs, resolveScheme]
  | null => simp [getColor, hcs, resolveScheme]
  | bool b => simp [getColor, hcs, resolveScheme]
  | num q => simp [getColor, hcs, resolveScheme]
  | obj fs => simp [getColor, hcs, resolveScheme]

theorem getColor_literal_passthrough_witness :
    getColor noSchemes { colorScheme := some (.val (.str "no-such-scheme")),
                         point := some (.obj [("key", .str "a")]),
                         data := some (.arr [.obj [("key", .str "a")]]) } =
      .ok (.str "no-such-scheme") :=
  getColor_literal_passthrough noSchemes _ _ rfl rfl (fun _ _ => rfl)

/-- C3: for a callback `colorScheme`, `getColor` returns exactly
`colorScheme(point, index, active)`, forwarding the three props
verbatim (absent props read `undefined`) and using nothing else. -/
theorem getColor_callback_forwarding (schemes : String → Option (List Value))
    (props : ColorHelperProps) (f : Value → Value → Value → Value)
    (hcs : props.colorScheme = some (.fn f)) :
    getColor schemes props =
      .ok (f (props.point.getD Value.undef) (props.index.getD Value.undef) (props.active.getD Value.undef)) := by
  simp [getColor, hcs, resolveScheme]

theorem getColor_callback_forwarding_witness :
    getColor noSchemes { colorScheme := some (.fn (fun p i a => .arr [p, i, a])),
                         point := some (.str "pt"), index := some (.num 7),
                         active := some (.arr [.str "x"]),
                         data := some (.arr [.obj [("key", .str "a")]]) } =
      .ok (.arr [.str "pt", .num 7, .arr [.str "x"]]) :=
  getColor_callback_forwarding noSchemes _ _ rfl

/-- C6: for the palette `["red","green","blue"]` with
`data = [{key:"a"},{key:"b"},{key:"c"}]`, the default attribute,
no explicit domain or key, and the default ordinal scale, `getColor`
on the point `{key:"b"}` returns `"green"` — the derived domain keeps
data order, so key `"b"` sits at ordinal index 1. -/
theorem getColor_palette_example_green :
    getColor noSchemes
      { colorScheme := some (.val (.arr [.str "red", .str "green", .str "blue"]))
        data := some (.arr [.obj [("key", .str "a")], .obj [("key", .str "b")],
                            .obj [("key", .str "c")]])
        point := some (.obj [("key", .str "b")]) } = .ok (.str "green") := rfl

/-- C9: `getColor` is deterministic — two calls with identical scheme
table and props (in particular, the same callback in the `fn` variant)
return identical results; the embedding as a total function is itself
the purity witness (no state is read or written). -/
theorem getColor_deterministic (schemes1 schemes2 : String → Option (List Value))
    (props1 props2 : ColorHelperProps)
    (hs : schemes1 = schemes2) (hp : props1 = props2) :
    getColor schemes1 props1 = getColor schemes2 props2 := by
  subst hs; subst hp; rfl

theorem getColor_deterministic_witness :
    getColor noSchemes { colorScheme := some (.val (.str "steelblue")) } =
      getColor noSchemes { colorScheme := some (.val (.str "steelblue")) } :=
  getColor_deterministic noSchemes noSchemes _ _ rfl rfl

/-- C8: the function returned by `getValueScale`, applied to
`undefined`, returns the configured `emptyColor`; and this holds for
the returned closure over any domain whatsoever, so neither the scale
nor the computed domain is consulted. -/
theorem getValueScale_undefined_emptyColor (schemes : String → Option (List Value))
    (data : List Value) (colorScheme : ColorScheme) (emptyColor : Value) :
    (∀ f, getValueScale schemes data colorScheme emptyColor = .ok f →
      f Value.undef = .ok emptyColor)
    ∧ (∀ dom, valueScaleFun schemes dom colorScheme emptyColor Value.undef = .ok emptyColor) := by
  constructor
  · intro f hf
    unfold getValueScale at hf
    cases hdom : valueDomainOf data with
    | error e => rw [hdom] at hf; cases hf
    | ok dom =>
      rw [hdom] at hf
      cases hf
      rfl
  · intro dom
    rfl

theorem getValueScale_undefined_emptyColor_witness :
    valueScaleFun noSchemes [Value.undef, Value.undef] (.val (.arr [.str "red"])) (.str "grey") Value.undef =
      .ok (.str "grey") :=
  (getValueScale_undefined_emptyColor noSchemes [] (.val (.arr [.str "red"])) (.str "grey")).1
    _ rfl

/-- C10: the function returned by `getValueScale` short-circuits to
`emptyColor` exactly on the nullish arguments `undefined` and `null`;
every other argument — the number `0` included — is handed to
`getColor` with the quantile scale over the computed domain instead of
being mapped to `emptyColor`. -/
theorem getValueScale_nullish_guard (schemes : String → Option (List Value))
    (data : List Value) (colorScheme : ColorScheme) (emptyColor : Value)
    (f : Value → Except JsErr Value)
    (hf : getValueScale schemes data colorScheme emptyColor = .ok f) :
    ∃ dom, valueDomainOf data = .ok dom ∧ ∀ p,
      f p = if isNullish p then .ok emptyColor
            else getColor schemes { scale := some scaleQuantile, domain := some dom,
                                    key := some p, colorScheme := some colorScheme } := by
  unfold getValueScale at hf
  cases hdom : valueDomainOf data with
  | error e => rw [hdom] at hf; cases hf
  | ok dom =>
    rw [hdom] at hf
    cases hf
    exact ⟨dom, rfl, fun p => rfl⟩

theorem getValueScale_nullish_guard_witness :
    valueScaleFun noSchemes [Value.undef, Value.undef] (.val (.arr [.str "red"])) (.str "grey") .null =
        .ok (.str "grey")
    ∧ valueScaleFun noSchemes [Value.undef, Value.undef] (.val (.arr [.str "red"])) (.str "grey") (.num 0) =
        .ok (.str "red") := by
  obtain ⟨dom, hdom, hall⟩ :=
    getValueScale_nullish_guard noSchemes [] (.val (.arr [.str "red"])) (.str "grey")
      (valueScaleFun noSchemes [Value.undef, Value.undef] (.val (.arr [.str "red"])) (.str "grey")) rfl
  have hdom' : dom = [Value.undef, Value.undef] := by
    have : Except.ok (ε := JsErr) [Value.undef, Value.undef] = .ok dom := hdom
    cases this
    rfl
  constructor
  · rw [hall Value.null, hdom']
    rfl
  · rw [hall (Value.num 0), hdom']
    rfl

/-- C1 (counterexample): with a palette-array `colorScheme` and neither
`domain` nor `data` supplied, `getColor` does not return a value — the
implicit-domain derivation calls `.map` on `undefined` and throws a
`TypeError`. -/
theorem getColor_throws_without_domain_or_data :
    getColor noSchemes { colorScheme := some (.val (.arr [.str "red"])) } =
      .error (.typeError "point.map is not a function") := rfl

/-- C7 (counterexample): for the array scheme `[null]` (whose first
element has `typeof` "object" but is not a style object),
`createColorSchemeValueScales` neither yields per-property scales nor
the single `"fill"` scale — `Object.keys(null)` throws a `TypeError`. -/
theorem createColorSchemeValueScales_null_entry_throws :
    createColorSchemeValueScales noSchemes [] (.val (.arr [.null])) (.str "grey") =
      .error (.typeError "Cannot convert undefined or null to object") := rfl

theorem rangeEntry_eq_spec (attr : String) (r : Value) (i : Nat)
    (h : elementOk r = true) :
    rangeEntry attr r i = specDomainEntry attr r i := by
  cases r with
  | undef => rfl
  | null => rfl
  | bool b => cases b <;> rfl
  | num q => simp [rangeEntry, specDomainEntry, jsGetFieldTotal, isUndef]
  | str s =>
    have hs : (s == "") = false := by
      simp [elementOk, jsStrictEq, jsGetFieldTotal] at h
      simpa using h
    by_cases ha : attr = "length"
    · subst ha
      simp [rangeEntry, specDomainEntry, jsGetFieldTotal, isUndef, truthy, hs]
    · simp [rangeEntry, specDomainEntry, jsGetFieldTotal, isUndef, truthy, hs, ha]
  | arr xs =>
    by_cases ha : attr = "length"
    · subst ha
      simp [rangeEntry, specDomainEntry, jsGetFieldTotal, isUndef, truthy]
    · simp [rangeEntry, specDomainEntry, jsGetFieldTotal, isUndef, truthy, ha]
  | obj fs =>
    have hd : jsStrictEq (jsGetFieldTotal (.obj fs) "data") (.str "") = false := by
      simp [elementOk] at h
      exact h.2
    cases hattr : lookupField fs attr with
    | undef =>
      cases hdata : lookupField fs "data" with
      | undef => simp [rangeEntry, specDomainEntry, jsGetFieldTotal, isUndef, truthy, hattr, hdata]
      | null => simp [rangeEntry, specDomainEntry, jsGetFieldTotal, isUndef, truthy, hattr, hdata]
      | bool b =>
        cases b <;>
          simp [rangeEntry, specDomainEntry, jsGetFieldTotal, isUndef, truthy, hattr, hdata]
      | num q => simp [rangeEntry, specDomainEntry, jsGetFieldTotal, isUndef, truthy, hattr, hdata]
      | str t =>
        have ht : (t == "") = false := by
          rw [jsGetFieldTotal, hdata] at hd
          simpa [jsStrictEq] using hd
        by_cases ha : attr = "length"
        · subst ha
          simp [rangeEntry, specDomainEntry, jsGetFieldTotal, isUndef, truthy, hattr, hdata, ht]
        · simp [rangeEntry, specDomainEntry, jsGetFieldTotal, isUndef, truthy, hattr, hdata, ha]
      | arr ys =>
        by_cases ha : attr = "length"
        · subst ha
          simp [rangeEntry, specDomainEntry, jsGetFieldTotal, isUndef, truthy, hattr, hdata]
        · simp [rangeEntry, specDomainEntry, jsGetFieldTotal, isUndef, truthy, hattr, hdata, ha]
      | obj gs => simp [rangeEntry, specDomainEntry, jsGetFieldTotal, isUndef, truthy, hattr, hdata]
    | null => simp [rangeEntry, specDomainEntry, jsGetFieldTotal, isUndef, truthy, hattr]
    | bool b => simp [rangeEntry, specDomainEntry, jsGetFieldTotal, isUndef, truthy, hattr]
    | num q => simp [rangeEntry, specDomainEntry, jsGetFieldTotal, isUndef, truthy, hattr]
    | str t => simp [rangeEntry, specDomainEntry, jsGetFieldTotal, isUndef, truthy, hattr]
    | arr ys => simp [rangeEntry, specDomainEntry, jsGetFieldTotal, isUndef, truthy, hattr]
    | obj gs => simp [rangeEntry, specDomainEntry, jsGetFieldTotal, isUndef, truthy, hattr]

theorem rangeEntriesGo_length (attr : String) :
    ∀ (xs : List Value) (i : Nat), (rangeEntriesGo attr xs i).length = xs.length
  | [], _ => rfl
  | r :: rs, i => by
    simp [rangeEntriesGo, rangeEntriesGo_length attr rs (i + 1)]

theorem rangeEntriesGo_eq_spec (attr : String) :
    ∀ (xs : List Value) (i : Nat), (∀ r ∈ xs, elementOk r = true) →
      rangeEntriesGo attr xs i = specDomainGo attr xs i
  | [], _, _ => rfl
  | r :: rs, i, h => by
    have hr := h r (by simp)
    have hrs : ∀ x ∈ rs, elementOk x = true := fun x hx => h x (by simp [hx])
    simp [rangeEntriesGo, specDomainGo, rangeEntry_eq_spec attr r i hr,
      rangeEntriesGo_eq_spec attr rs (i + 1) hrs]

/-- C4: the derived domain always has exactly one entry per series
element; and on series whose elements do not hide a property behind
JavaScript falsiness (no empty-string element or `data` field — the
only falsy value owning a property), each entry follows the
specification's rule: the element's attribute when defined, else the
nested `data`'s attribute when defined, else the positional index. -/
theorem rangeHelper_spec (attr : String) (xs : List Value) :
    (∀ ys, rangeHelper (.arr xs) attr = .ok ys → ys.length = xs.length)
    ∧ (xs.all elementOk = true →
        rangeHelper (.arr xs) attr = .ok (specDomainList xs attr)) := by
  constructor
  · intro ys hys
    have hy : rangeEntries xs attr = ys := by
      cases hys
      rfl
    rw [← hy, rangeEntries, rangeEntriesGo_length]
  · intro hall
    have h := List.all_eq_true.mp hall
    simp [rangeHelper, rangeEntries, specDomainList,
      rangeEntriesGo_eq_spec attr xs 0 (fun r hr => h r hr)]

theorem rangeHelper_spec_witness :
    rangeHelper (.arr [.obj [("key", .str "a")], .null,
        .obj [("data", .obj [("key", .str "c")])]]) "key" =
      .ok [.str "a", .num 1, .str "c"]
    ∧ ([Value.str "a", Value.num 1, Value.str "c"]).length = 3 :=
  ⟨(rangeHelper_spec "key" [.obj [("key", .str "a")], .null,
      .obj [("data", .obj [("key", .str "c")])]]).2 rfl,
   (rangeHelper_spec "key" [.obj [("key", .str "a")], .null,
      .obj [("data", .obj [("key", .str "c")])]]).1 _
     ((rangeHelper_spec "key" [.obj [("key", .str "a")], .null,
        .obj [("data", .obj [("key", .str "c")])]]).2 rfl)⟩

theorem seriesLenAccessor_good (d : Value) (h : goodSeries d = true) :
    seriesLenAccessor d = .ok (.num ((seriesData d).length : ℚ)) := by
  cases d with
  | obj fs =>
    cases hl : lookupField fs "data" with
    | arr xs => simp [seriesLenAccessor, jsGetField, jsGetFieldTotal, hl, seriesData]
    | undef => simp [goodSeries, hl] at h
    | null => simp [goodSeries, hl] at h
    | bool b => simp [goodSeries, hl] at h
    | num q => simp [goodSeries, hl] at h
    | str s => simp [goodSeries, hl] at h
    | obj gs => simp [goodSeries, hl] at h
  | undef => simp [goodSeries] at h
  | null => simp [goodSeries] at h
  | bool b => simp [goodSeries] at h
  | num q => simp [goodSeries] at h
  | str s => simp [goodSeries] at h
  | arr xs => simp [goodSeries] at h

theorem jsGetField_data_good (d : Value) (h : goodSeries d = true) :
    jsGetField d "data" = .ok (.arr (seriesData d)) := by
  cases d with
  | obj fs =>
    cases hl : lookupField fs "data" with
    | arr xs => simp [jsGetField, jsGetFieldTotal, hl, seriesData]
    | undef => simp [goodSeries, hl] at h
    | null => simp [goodSeries, hl] at h
    | bool b => simp [goodSeries, hl] at h
    | num q => simp [goodSeries, hl] at h
    | str s => simp [goodSeries, hl] at h
    | obj gs => simp [goodSeries, hl] at h
  | undef => simp [goodSeries] at h
  | null => simp [goodSeries] at h
  | bool b => simp [goodSeries] at h
  | num q => simp [goodSeries] at h
  | str s => simp [goodSeries] at h
  | arr xs => simp [goodSeries] at h

theorem maxIndexGo_good :
    ∀ (ds : List Value), (∀ d ∈ ds, goodSeries d = true) → ∀ (i bi bv : Nat),
      maxIndexGo seriesLenAccessor ds i (some (.num (bv : ℚ), bi)) =
        .ok (some (.num ((firstArgmaxGo bi bv i (ds.map fun d => (seriesData d).length)).2 : ℚ),
                   (firstArgmaxGo bi bv i (ds.map fun d => (seriesData d).length)).1))
  | [], _, i, bi, bv => by simp [maxIndexGo, firstArgmaxGo]
  | d :: ds, h, i, bi, bv => by
    have hd := seriesLenAccessor_good d (h d (by simp))
    have htail : ∀ x ∈ ds, goodSeries x = true := fun x hx => h x (by simp [hx])
    by_cases hlt : bv < (seriesData d).length
    · simp [maxIndexGo, hd, isNullish, jsLt, firstArgmaxGo, Nat.cast_lt, hlt,
        maxIndexGo_good ds htail (i + 1) i (seriesData d).length]
    · simp [maxIndexGo, hd, isNullish, jsLt, firstArgmaxGo, Nat.cast_lt, hlt,
        maxIndexGo_good ds htail (i + 1) bi bv]

theorem maxIndexJs_good (d : Value) (ds : List Value)
    (h : ∀ x ∈ d :: ds, goodSeries x = true) :
    maxIndexJs (d :: ds) seriesLenAccessor =
      .ok ((firstArgmax ((d :: ds).map fun x => (seriesData x).length) : Nat) : Int) := by
  have hd := seriesLenAccessor_good d (h d (by simp))
  have htail : ∀ x ∈ ds, goodSeries x = true := fun x hx => h x (by simp [hx])
  simp [maxIndexJs, maxIndexGo, hd, isNullish, jsGe, jsLt, lt_irrefl, firstArgmax,
    maxIndexGo_good ds htail 1 0 (seriesData d).length]

theorem firstArgmaxGo_fst_bound :
    ∀ (ls : List Nat) (bi bv i : Nat), bi < i →
      (firstArgmaxGo bi bv i ls).1 < i + ls.length
  | [], bi, bv, i, h => by
    simp [firstArgmaxGo]
    omega
  | l :: ls, bi, bv, i, h => by
    by_cases hlt : bv < l
    · have hb := firstArgmaxGo_fst_bound ls i l (i + 1) (by omega)
      simp only [firstArgmaxGo, hlt, if_true, List.length_cons]
      omega
    · have hb := firstArgmaxGo_fst_bound ls bi bv (i + 1) (by omega)
      simp only [firstArgmaxGo, hlt, if_false, List.length_cons]
      omega

theorem firstArgmax_lt (l : Nat) (ls : List Nat) :
    firstArgmax (l :: ls) < (l :: ls).length := by
  have hb := firstArgmaxGo_fst_bound ls 0 l 1 (by omega)
  simp only [firstArgmax, List.length_cons]
  omega

theorem getKey_defined (point : Value) (attr : String) (k : Value)
    (h : isUndef k = false) : getKey point attr k = .ok k := by
  cases k with
  | undef => simp [isUndef] at h
  | null => rfl
  | bool b => rfl
  | num q => rfl
  | str s => rfl
  | arr xs => rfl
  | obj fs => rfl

theorem jsGetField_ok (p : Value) (attr : String) (h : isNullish p = false) :
    jsGetField p attr = .ok (jsGetFieldTotal p attr) := by
  cases p with
  | undef => simp [isNullish] at h
  | null => simp [isNullish] at h
  | bool b => rfl
  | num q => rfl
  | str s => rfl
  | arr xs => rfl
  | obj fs => rfl

theorem deriveDomain_multi_good (attr : String) (d : Value) (rest : List Value)
    (hgood : ∀ x ∈ d :: rest, goodSeries x = true) :
    deriveDomain attr true (.arr (d :: rest)) =
      .ok (rangeEntries
        (seriesData ((d :: rest).getD
          (firstArgmax ((d :: rest).map fun x => (seriesData x).length)) Value.undef))
        attr) := by
  have hmx := maxIndexJs_good d rest hgood
  have hj : firstArgmax ((d :: rest).map fun x => (seriesData x).length) <
      (d :: rest).length := by
    have := firstArgmax_lt ((seriesData d).length) (rest.map fun x => (seriesData x).length)
    simpa using this
  have hmem : (d :: rest).getD
      (firstArgmax ((d :: rest).map fun x => (seriesData x).length)) Value.undef ∈ d :: rest := by
    rw [List.getD_eq_getElem _ _ hj]
    exact List.getElem_mem _
  have hgj := hgood _ hmem
  have hidx : jsIndex (d :: rest)
      ((firstArgmax ((d :: rest).map fun x => (seriesData x).length) : Nat) : Int) =
      (d :: rest).getD (firstArgmax ((d :: rest).map fun x => (seriesData x).length)) Value.undef := by
    simp [jsIndex]
  simp only [deriveDomain, hmx, hidx, jsGetField_data_good _ hgj, rangeHelper]

/-- C5: with an array `colorScheme`, no explicit domain,
`isMultiSeries = true` and multi-series data (a nonempty array of
series objects carrying array `data` fields), the implicit domain of
`getColor` is derived only from the inner series of greatest element
count — ties broken by first occurrence — and has exactly one entry per
element of that series. -/
theorem getColor_multiSeries_longest (schemes : String → Option (List Value))
    (props : ColorHelperProps) (pal : List Value) (ds : List Value) (k : Value)
    (hcs : props.colorScheme = some (.val (.arr pal)))
    (hdom : props.domain = none)
    (hms : props.isMultiSeries = some true)
    (hdata : props.data = some (.arr ds))
    (hne : ds ≠ [])
    (hgood : ds.all goodSeries = true)
    (hkey : props.key = some k)
    (hku : isUndef k = false) :
    getColor schemes props =
      .ok ((props.scale.getD scaleOrdinal) pal
        (rangeEntries
          (seriesData (ds.getD (firstArgmax (ds.map fun d => (seriesData d).length)) Value.undef))
          (props.attr.getD "key")) k)
    ∧ (rangeEntries
        (seriesData (ds.getD (firstArgmax (ds.map fun d => (seriesData d).length)) Value.undef))
        (props.attr.getD "key")).length =
      (seriesData (ds.getD (firstArgmax (ds.map fun d => (seriesData d).length)) Value.undef)).length := by
  cases ds with
  | nil => exact absurd rfl hne
  | cons d rest =>
    have hall : ∀ x ∈ d :: rest, goodSeries x = true := fun x hx =>
      List.all_eq_true.mp hgood x hx
    constructor
    · simp only [getColor, hcs, hdom, hms, hdata, hkey, resolveScheme, Option.getD_some,
        deriveDomain_multi_good (props.attr.getD "key") d rest hall,
        getKey_defined _ _ _ hku]
    · exact rangeEntriesGo_length _ _ _

theorem getColor_multiSeries_longest_witness :
    getColor noSchemes
      { colorScheme := some (.val (.arr [.str "c1", .str "c2", .str "c3", .str "c4", .str "c5"]))
        data := some (.arr
          [.obj [("data", .arr [.obj [("key", .str "a")], .obj [("key", .str "b")]])],
           .obj [("data", .arr [.obj [("key", .str "d")], .obj [("key", .str "e")],
             .obj [("key", .str "f")], .obj [("key", .str "g")], .obj [("key", .str "h")]])]])
        isMultiSeries := some true
        key := some (.str "f") } = .ok (.str "c3")
    ∧ (rangeEntries [Value.obj [("key", .str "d")], .obj [("key", .str "e")],
        .obj [("key", .str "f")], .obj [("key", .str "g")], .obj [("key", .str "h")]]
        "key").length = 5 := by
  have h := getColor_multiSeries_longest noSchemes
      { colorScheme := some (.val (.arr [.str "c1", .str "c2", .str "c3", .str "c4", .str "c5"]))
        data := some (.arr
          [.obj [("data", .arr [.obj [("key", .str "a")], .obj [("key", .str "b")]])],
           .obj [("data", .arr [.obj [("key", .str "d")], .obj [("key", .str "e")],
             .obj [("key", .str "f")], .obj [("key", .str "g")], .obj [("key", .str "h")]])]])
        isMultiSeries := some true
        key := some (.str "f") }
      [.str "c1", .str "c2", .str "c3", .str "c4", .str "c5"]
      [.obj [("data", .arr [.obj [("key", .str "a")], .obj [("key", .str "b")]])],
       .obj [("data", .arr [.obj [("key", .str "d")], .obj [("key", .str "e")],
         .obj [("key", .str "f")], .obj [("key", .str "g")], .obj [("key", .str "h")]])]]
      (.str "f") rfl rfl rfl rfl (List.cons_ne_nil _ _) rfl rfl rfl
  exact ⟨h.1, h.2⟩

/-- C1 (amended): `getColor` returns a value whenever the resolved
scheme is not an array (callback or literal, with no conditions), and,
for an array scheme, whenever the domain step is safe (an explicit
domain, or `data` an array — in the multi-series case nonempty with
array `data` fields) and the key step is safe (an explicit key, or a
non-nullish point). Outside these conditions it can throw: see
`getColor_throws_without_domain_or_data` for the palette with neither
`domain` nor `data`. -/
theorem getColor_total_when_safe (schemes : String → Option (List Value))
    (props : ColorHelperProps) :
    ((∀ pal, resolveScheme schemes (props.colorScheme.getD (.val Value.undef)) ≠ .val (.arr pal)) →
      ∃ v, getColor schemes props = .ok v)
    ∧ (dataSafe props = true → keySafe props = true →
      ∃ v, getColor schemes props = .ok v) := by
  constructor
  · intro hna
    cases hres : resolveScheme schemes (props.colorScheme.getD (.val Value.undef)) with
    | fn f =>
      exact ⟨f (props.point.getD Value.undef) (props.index.getD Value.undef) (props.active.getD Value.undef),
        by simp [getColor, hres]⟩
    | val v =>
      cases v with
      | arr pal => exact absurd hres (hna pal)
      | undef => exact ⟨Value.undef, by simp [getColor, hres]⟩
      | null => exact ⟨.null, by simp [getColor, hres]⟩
      | bool b => exact ⟨.bool b, by simp [getColor, hres]⟩
      | num q => exact ⟨.num q, by simp [getColor, hres]⟩
      | str s => exact ⟨.str s, by simp [getColor, hres]⟩
      | obj fs => exact ⟨.obj fs, by simp [getColor, hres]⟩
  · intro hds hks
    have hkey : ∃ k, getKey (props.point.getD Value.undef) (props.attr.getD "key")
        (props.key.getD Value.undef) = .ok k := by
      cases hk : props.key.getD Value.undef with
      | undef =>
        have hp : isNullish (props.point.getD Value.undef) = false := by
          rw [keySafe, hk] at hks
          simpa [isUndef] using hks
        exact ⟨_, by rw [getKey, jsGetField_ok _ _ hp]⟩
      | null => exact ⟨.null, rfl⟩
      | bool b => exact ⟨.bool b, rfl⟩
      | num q => exact ⟨.num q, rfl⟩
      | str s => exact ⟨.str s, rfl⟩
      | arr xs => exact ⟨.arr xs, rfl⟩
      | obj fs => exact ⟨.obj fs, rfl⟩
    have hdom : ∃ dom, (match props.domain with
        | some d => Except.ok d
        | none => deriveDomain (props.attr.getD "key") (props.isMultiSeries.getD false)
            (props.data.getD Value.undef)) = .ok dom := by
      cases hD : props.domain with
      | some d => exact ⟨d, rfl⟩
      | none =>
        rw [dataSafe, hD] at hds
        cases hdat : props.data.getD Value.undef with
        | arr ds =>
          rw [hdat] at hds
          cases hms : props.isMultiSeries.getD false with
          | true =>
            rw [hms] at hds
            simp only [Bool.and_eq_true] at hds
            cases ds with
            | nil => simp [List.isEmpty] at hds
            | cons d rest =>
              have hall : ∀ x ∈ d :: rest, goodSeries x = true := fun x hx =>
                List.all_eq_true.mp hds.2 x hx
              exact ⟨_, by
                simpa using deriveDomain_multi_good (props.attr.getD "key") d rest hall⟩
          | false =>
            exact ⟨rangeEntries ds (props.attr.getD "key"), rfl⟩
        | undef => rw [hdat] at hds; cases props.isMultiSeries.getD false <;> simp at hds
        | null => rw [hdat] at hds; cases props.isMultiSeries.getD false <;> simp at hds
        | bool b => rw [hdat] at hds; cases props.isMultiSeries.getD false <;> simp at hds
        | num q => rw [hdat] at hds; cases props.isMultiSeries.getD false <;> simp at hds
        | str s => rw [hdat] at hds; cases props.isMultiSeries.getD false <;> simp at hds
        | obj fs => rw [hdat] at hds; cases props.isMultiSeries.getD false <;> simp at hds
    obtain ⟨dom, hdomok⟩ := hdom
    obtain ⟨k, hkok⟩ := hkey
    cases hres : resolveScheme schemes (props.colorScheme.getD (.val Value.undef)) with
    | fn f =>
      exact ⟨f (props.point.getD Value.undef) (props.index.getD Value.undef) (props.active.getD Value.undef),
        by simp [getColor, hres]⟩
    | val v =>
      cases v with
      | arr pal =>
        exact ⟨(props.scale.getD scaleOrdinal) pal dom k,
          by simp only [getColor, hres, hdomok, hkok]⟩
      | undef => exact ⟨Value.undef, by simp [getColor, hres]⟩
      | null => exact ⟨.null, by simp [getColor, hres]⟩
      | bool b => exact ⟨.bool b, by simp [getColor, hres]⟩
      | num q => exact ⟨.num q, by simp [getColor, hres]⟩
      | str s => exact ⟨.str s, by simp [getColor, hres]⟩
      | obj fs => exact ⟨.obj fs, by simp [getColor, hres]⟩

theorem getColor_total_when_safe_witness :
    (∃ v, getColor noSchemes { colorScheme := some (.val (.num 42)) } = .ok v)
    ∧ (∃ v, getColor noSchemes
        { colorScheme := some (.val (.arr [.str "red"])),
          data := some (.arr [.obj [("key", .str "a")]]),
          point := some (.obj [("key", .str "a")]) } = .ok v) :=
  ⟨(getColor_total_when_safe noSchemes { colorScheme := some (.val (.num 42)) }).1
      (by intro pal h; simp [resolveScheme] at h),
   (getColor_total_when_safe noSchemes
      { colorScheme := some (.val (.arr [.str "red"])),
        data := some (.arr [.obj [("key", .str "a")]]),
        point := some (.obj [("key", .str "a")]) }).2 rfl rfl⟩

theorem jsObjectKeys_nonNullish (v : Value) (h : isNullish v = false) :
    jsObjectKeys v = .ok (objKeysPure v) := by
  cases v with
  | undef => simp [isNullish] at h
  | null => simp [isNullish] at h
  | bool b => rfl
  | num q => rfl
  | str s => rfl
  | arr xs => rfl
  | obj fs => rfl

theorem flatMapObjectKeys_nonNullish :
    ∀ (items : List Value), (∀ it ∈ items, isNullish it = false) →
      flatMapObjectKeys items = .ok (unionKeys items)
  | [], _ => rfl
  | it :: its, h => by
    simp only [flatMapObjectKeys, unionKeys,
      jsObjectKeys_nonNullish it (h it (by simp)),
      flatMapObjectKeys_nonNullish its (fun x hx => h x (by simp [hx]))]

theorem buildPropScales_spec (schemes : String → Option (List Value)) (data : List Value)
    (colorScheme : ColorScheme) (emptyColor : Value) :
    ∀ (ks : List String) (m : List (String × (Value → Except JsErr Value))),
      buildPropScales schemes data colorScheme emptyColor ks = .ok m →
      m.map Prod.fst = ks ∧
      ∀ p ∈ m, getValueScale schemes data (getColorSchemeForProperty colorScheme p.1)
        emptyColor = .ok p.2
  | [], m, h => by
    cases h
    exact ⟨rfl, by simp⟩
  | k :: ks, m, h => by
    rw [buildPropScales] at h
    cases hvs : getValueScale schemes data (getColorSchemeForProperty colorScheme k)
        emptyColor with
    | error e => rw [hvs] at h; cases h
    | ok vs =>
      rw [hvs] at h
      cases hrest : buildPropScales schemes data colorScheme emptyColor ks with
      | error e => rw [hrest] at h; cases h
      | ok rest =>
        rw [hrest] at h
        cases h
        obtain ⟨h1, h2⟩ :=
          buildPropScales_spec schemes data colorScheme emptyColor ks rest hrest
        refine ⟨by simp [h1], ?_⟩
        intro p hp
        rcases List.mem_cons.mp hp with hpk | hpm
        · subst hpk
          exact hvs
        · exact h2 p hpm

/-- C7 (amended): when `colorScheme` is an array whose first element has
object type (`typeof === 'object'`: style objects, arrays, `null`) and
no entry is nullish, any returned map's key list is exactly the
first-occurrence de-duplicated union of the entries' own property keys,
with one value scale per key, each built from the scheme projected to
that property; with a nullish entry the construction instead throws
(see `createColorSchemeValueScales_null_entry_throws`). When the scheme
is not an array, or its first element is not of object type, the single
key `"fill"` is produced over the whole scheme. -/
theorem createColorSchemeValueScales_spec (schemes : String → Option (List Value))
    (data : List Value) (emptyColor : Value) (colorScheme : ColorScheme) :
    (∀ items, colorScheme = .val (.arr items) →
      typeofIsObject (items.headD Value.undef) = true →
      items.all (fun it => !(isNullish it)) = true →
      ∀ m, createColorSchemeValueScales schemes data colorScheme emptyColor = .ok m →
        m.map Prod.fst = dedupStr (unionKeys items) ∧
        ∀ p ∈ m, getValueScale schemes data (getColorSchemeForProperty colorScheme p.1)
          emptyColor = .ok p.2)
    ∧ ((match colorScheme with
        | .val (.arr items) => typeofIsObject (items.headD Value.undef) = false
        | _ => True) →
      createColorSchemeValueScales schemes data colorScheme emptyColor =
        (match getValueScale schemes data colorScheme emptyColor with
         | .error e => .error e
         | .ok vs => .ok [("fill", vs)])) := by
  constructor
  · rintro items rfl hhead hnn m hm
    have hnn2 : ∀ it ∈ items, isNullish it = false := by
      intro it hit
      have := List.all_eq_true.mp hnn it hit
      simpa using this
    simp only [createColorSchemeValueScales, hhead, if_true,
      flatMapObjectKeys_nonNullish items hnn2] at hm
    exact buildPropScales_spec schemes data _ emptyColor _ m hm
  · intro hother
    cases colorScheme with
    | fn f => rfl
    | val v =>
      cases v with
      | arr items =>
        have hh : typeofIsObject (items.headD Value.undef) = false := hother
        simp only [createColorSchemeValueScales, hh, Bool.false_eq_true, if_false]
      | undef => rfl
      | null => rfl
      | bool b => rfl
      | num q => rfl
      | str s => rfl
      | obj fs => rfl

theorem createColorSchemeValueScales_spec_witness :
    ([("fill", valueScaleFun noSchemes [Value.undef, Value.undef]
        (.val (.arr [.str "red", .str "blue"])) (.str "transparent")),
      ("stroke", valueScaleFun noSchemes [Value.undef, Value.undef]
        (.val (.arr [.str "black", .str "grey"])) (.str "transparent"))].map Prod.fst) =
      ["fill", "stroke"] :=
  ((createColorSchemeValueScales_spec noSchemes [] (.str "transparent")
      (.val (.arr [.obj [("fill", .str "red"), ("stroke", .str "black")],
                   .obj [("fill", .str "blue"), ("stroke", .str "grey")]]))).1
    [.obj [("fill", .str "red"), ("stroke", .str "black")],
     .obj [("fill", .str "blue"), ("stroke", .str "grey")]]
    rfl rfl rfl
    [("fill", valueScaleFun noSchemes [Value.undef, Value.undef]
        (.val (.arr [.str "red", .str "blue"])) (.str "transparent")),
     ("stroke", valueScaleFun noSchemes [Value.undef, Value.undef]
        (.val (.arr [.str "black", .str "grey"])) (.str "transparent"))]
    rfl).1
